import Mathlib

/-!
Shallow embedding of the A2A task-orchestration layer of this repository:
the two task managers (`AgentTaskManager` in `finala2e/task_manager.py` and
`MathAgentTaskManager` in `notebooks/math_agent_a2a.py`) together with the
data model they operate on.  Side-effecting calls (store mutation, push
notification, SSE enqueueing) are recorded as an explicit trace of
operations; the external collaborators (modality-compatibility check,
push-URL verification, the agent's `invoke`/`stream` interface) are
parameters of an environment record, and exceptions are explicit outcomes.
-/

namespace A2AMCP

/-- Task lifecycle states (`common.types.TaskState`). -/
inductive TaskState
  | SUBMITTED
  | WORKING
  | INPUT_REQUIRED
  | COMPLETED
  | FAILED
  | CANCELED
  deriving DecidableEq, Repr

/-- A message content part: the managers only ever build and inspect text
parts; any other kind (file, data, ...) is represented by `other`. -/
inductive Part
  | text (s : String)
  | other (kind : String)
  deriving DecidableEq, Repr

/-- A protocol message: a role and an ordered list of content parts. -/
structure Message where
  role : String
  parts : List Part
  deriving DecidableEq, Repr

/-- A task status: a state and an optional message. -/
structure TaskStatus where
  state : TaskState
  message : Option Message := none
  deriving DecidableEq, Repr

/-- An artifact produced by a task (`common.types.Artifact`); the managers
construct it from a list of parts (the notebook manager also passes the
default `index=0, append=False` explicitly). -/
structure Artifact where
  parts : List Part
  index : Nat := 0
  append : Bool := false
  deriving DecidableEq, Repr

/-- A push-notification registration target; an empty `url` models the
falsy/missing URL the validators reject. -/
structure PushNotificationConfig where
  url : String
  deriving DecidableEq, Repr

/-- Parameters of a `tasks/send` / `tasks/sendSubscribe` request
(`common.types.TaskSendParams`). -/
structure TaskSendParams where
  id : String
  sessionId : String
  acceptedOutputModes : List String
  message : Message
  pushNotification : Option PushNotificationConfig := none
  historyLength : Option Nat := none
  deriving DecidableEq, Repr

/-- A stored task: id, session, current status, artifacts and history. -/
structure Task where
  id : String
  sessionId : String
  status : TaskStatus
  artifacts : List Artifact := []
  history : List TaskStatus := []
  deriving DecidableEq, Repr

/-- The JSON-RPC errors the task managers produce. -/
inductive RpcError
  | incompatibleTypes
  | invalidParams (msg : String)
  | internalError (msg : String)
  deriving DecidableEq, Repr

/-- One observable side-effecting operation of a task manager, recorded in
execution order. -/
inductive Op
  | upsertTask (taskId : String)
  | updateStore (taskId : String) (status : TaskStatus) (artifacts : Option (List Artifact))
  | sendNotification (taskId : String)
  | verifyPushURL (url : String)
  | persistPushConfig (taskId : String) (cfg : PushNotificationConfig)
  | enqueueArtifactEvent (taskId : String) (artifact : Artifact)
  | enqueueStatusEvent (taskId : String) (status : TaskStatus) (final : Bool)
  | enqueueErrorEvent (taskId : String)
  | setupSseConsumer (taskId : String)
  | spawnStreamingRun (taskId : String)
  deriving DecidableEq, Repr

/-- Whether an operation mutates a task's stored status. -/
def Op.isStoreWrite : Op → Bool
  | Op.updateStore _ _ _ => true
  | _ => false

/-- The store writes contained in a trace, in order. -/
def storeWrites (ops : List Op) : List Op :=
  ops.filter Op.isStoreWrite

/-- Result of the synchronous `on_send_task` handler: a successful task
view, a JSON-RPC error response, or an exception escaping the handler. -/
inductive SendTaskOutcome
  | ok (task : Task)
  | err (e : RpcError)
  | raised (msg : String)
  deriving DecidableEq, Repr

/-- Result of `on_send_task_subscribe`: a live event stream or an error. -/
inductive SubscribeOutcome
  | stream
  | err (e : RpcError)
  deriving DecidableEq, Repr

/-- One increment yielded by the agent's streaming interface: the Python
dict `{is_task_complete, require_user_input?, content}`; the
`require_user_input` key may be absent (`none`). -/
structure StreamItem where
  is_task_complete : Bool
  require_user_input : Option Bool := none
  content : String
  deriving DecidableEq, Repr

/-- The agent's synchronous response dict `{content, require_user_input?}`. -/
structure AgentResponse where
  content : String
  require_user_input : Option Bool := none
  deriving DecidableEq, Repr

/-- One step of the agent's stream as observed by the streaming run, with
fault injection: `yield i none` is a normally processed increment,
`yield i (some n)` means an exception is raised while processing the
increment after its first `n` operations succeeded (covering failures of
`update_store`, the push notification, or the enqueues), and `raiseOnNext`
means pulling the next increment from the agent raises. -/
inductive RunEvent
  | yield (item : StreamItem) (fault : Option Nat)
  | raiseOnNext
  deriving DecidableEq, Repr

/-- Modelled from the spec: `upsertTask(params)` of the in-memory task
store (`common.server.task_manager.InMemoryTaskManager`, which is not among
the sources) — "if no task exists for `params.id`, create one with state
SUBMITTED and empty history; otherwise return the existing task
unchanged". -/
def upsert_task (params : TaskSendParams) (existing : Option Task) : Task :=
  match existing with
  | some t => t
  | none =>
      { id := params.id
        sessionId := params.sessionId
        status := { state := TaskState.SUBMITTED }
        artifacts := []
        history := [] }

/-- Modelled from the spec: `updateStore(id, status, artifacts?)` of the
in-memory task store (`InMemoryTaskManager.update_store`, not among the
sources) — "sets `status`, appends non-empty `artifacts` to the task's
artifact list, appends the previous status to `history`, and returns the
updated Task".  The task for the id is passed in directly; the not-found
failure path is not needed by the handlers modelled here, which always
upsert first. -/
def update_store (t : Task) (status : TaskStatus) (artifacts : Option (List Artifact)) : Task :=
  { t with
    status := status
    artifacts := t.artifacts ++ artifacts.getD []
    history := t.history ++ [t.status] }

/-- Modelled from the spec: `appendTaskHistory(task, n)` of the in-memory
task store (`InMemoryTaskManager.append_task_history`, not among the
sources) — "returns a copy of `task` with `history` truncated to the last
`n` entries (unbounded if `n` is null/omitted)". -/
def append_task_history (t : Task) (n : Option Nat) : Task :=
  match n with
  | none => t
  | some k => { t with history := t.history.drop (t.history.length - k) }

namespace AgentTaskManager

/-- External collaborators of `AgentTaskManager` (`finala2e/task_manager.py`):
the modality-compatibility check applied to the request's accepted output
modes (`common.server.utils.are_modalities_compatible` against the agent's
supported content types), whether a `notification_sender_auth` was supplied,
the push-URL challenge verification, and the agent's blocking `invoke`
(`Except.error m` models a raised exception with text `m`). -/
structure Env where
  compatible : List String → Bool
  has_auth : Bool
  verify : String → Bool
  invoke : String → Except String AgentResponse

/-- `AgentTaskManager._get_user_query`: takes `message.parts[0]` and
requires it to be a text part; an empty parts list raises `IndexError`, a
non-text first part raises `ValueError`. -/
def get_user_query (params : TaskSendParams) : Except String String :=
  match params.message.parts with
  | [] => Except.error "list index out of range"
  | p :: _ =>
      match p with
      | Part.text s => Except.ok s
      | Part.other _ => Except.error "Only text parts are supported"

/-- `AgentTaskManager._validate_request`: rejects when the accepted output
modes are not compatible with the agent's supported content types, then
when a present push-notification config has a falsy (empty) URL. -/
def validate_request (env : Env) (params : TaskSendParams) : Option RpcError :=
  if env.compatible params.acceptedOutputModes = false then
    some RpcError.incompatibleTypes
  else
    match params.pushNotification with
    | some cfg =>
        if cfg.url = "" then
          some (RpcError.invalidParams "Push notification URL is missing")
        else none
    | none => none

/-- `AgentTaskManager.set_push_notification_info`: when a
`notification_sender_auth` is present, verifies ownership of the URL first
and reports failure without persisting; otherwise (or on success)
persists the config via the base store and reports success. -/
def set_push_notification_info (env : Env) (taskId : String)
    (cfg : PushNotificationConfig) : List Op × Bool :=
  if env.has_auth then
    if env.verify cfg.url then
      ([Op.verifyPushURL cfg.url, Op.persistPushConfig taskId cfg], true)
    else
      ([Op.verifyPushURL cfg.url], false)
  else
    ([Op.persistPushConfig taskId cfg], true)

/-- The push-registration step of the send handlers: calls
`set_push_notification_info` when a config is present, otherwise succeeds
with no operation. -/
def push_registration (env : Env) (params : TaskSendParams) : List Op × Bool :=
  match params.pushNotification with
  | some cfg => set_push_notification_info env params.id cfg
  | none => ([], true)

/-- `AgentTaskManager._process_agent_response`: maps the agent's response
to INPUT_REQUIRED with a message (when `require_user_input` is truthy,
absent meaning false) or COMPLETED with an artifact, routes the mutation
through `update_store`, truncates the history for the returned view, and
notifies. -/
def process_agent_response (params : TaskSendParams) (stored : Task)
    (resp : AgentResponse) : List Op × Task :=
  let parts := [Part.text resp.content]
  let pair : TaskStatus × Option Artifact :=
    if resp.require_user_input.getD false then
      ({ state := TaskState.INPUT_REQUIRED
         message := some { role := "agent", parts := parts } }, none)
    else
      ({ state := TaskState.COMPLETED }, some { parts := parts })
  let task_status := pair.1
  let artifact := pair.2
  let task := update_store stored task_status (artifact.map fun a => [a])
  let task_result := append_task_history task params.historyLength
  ([Op.updateStore params.id task_status (artifact.map fun a => [a]),
    Op.sendNotification params.id], task_result)

/-- `AgentTaskManager.on_send_task`: validate; register a present push
config (rejecting on failed verification); upsert; set WORKING and notify;
extract the user query (outside the try block); invoke the agent inside a
try block whose handler returns an `InternalError` response. -/
def on_send_task (env : Env) (existing : Option Task)
    (params : TaskSendParams) : List Op × SendTaskOutcome :=
  match validate_request env params with
  | some e => ([], SendTaskOutcome.err e)
  | none =>
      let pushStep := push_registration env params
      if pushStep.2 = false then
        (pushStep.1, SendTaskOutcome.err
          (RpcError.invalidParams "Push notification URL is invalid"))
      else
        let task0 := upsert_task params existing
        let working : TaskStatus := { state := TaskState.WORKING }
        let task1 := update_store task0 working none
        let ops1 := pushStep.1 ++
          [Op.upsertTask params.id,
           Op.updateStore params.id working none,
           Op.sendNotification params.id]
        match get_user_query params with
        | Except.error m => (ops1, SendTaskOutcome.raised m)
        | Except.ok q =>
            match env.invoke q with
            | Except.error m =>
                (ops1, SendTaskOutcome.err
                  (RpcError.internalError ("Error invoking agent: " ++ m)))
            | Except.ok resp =>
                let pr := process_agent_response params task1 resp
                (ops1 ++ pr.1, SendTaskOutcome.ok pr.2)

/-- `AgentTaskManager.on_send_task_subscribe`: validate, upsert the task,
then register a present push config (rejecting on failed verification),
set up the SSE consumer and spawn the streaming run. -/
def on_send_task_subscribe (env : Env) (params : TaskSendParams) :
    List Op × SubscribeOutcome :=
  match validate_request env params with
  | some e => ([], SubscribeOutcome.err e)
  | none =>
      let ops0 := [Op.upsertTask params.id]
      let pushStep := push_registration env params
      if pushStep.2 = false then
        (ops0 ++ pushStep.1, SubscribeOutcome.err
          (RpcError.invalidParams "Push notification URL is invalid"))
      else
        (ops0 ++ pushStep.1 ++
          [Op.setupSseConsumer params.id, Op.spawnStreamingRun params.id],
         SubscribeOutcome.stream)

/-- The body of `AgentTaskManager._run_streaming_agent`'s loop for one
increment: derive `(state, message, artifact, end_stream)` from the item
(`require_user_input` read with a false default), then `update_store`,
notify, enqueue the artifact event when an artifact was produced, and
enqueue the status event last. -/
def stream_item_ops (taskId : String) (item : StreamItem) : List Op :=
  let rui := item.require_user_input.getD false
  let parts := [Part.text item.content]
  let triple : TaskState × Option Message × Option Artifact × Bool :=
    if !item.is_task_complete && !rui then
      (TaskState.WORKING, some { role := "agent", parts := parts }, none, false)
    else if rui then
      (TaskState.INPUT_REQUIRED, some { role := "agent", parts := parts }, none, true)
    else
      (TaskState.COMPLETED, none, some { parts := parts }, true)
  let task_status : TaskStatus := { state := triple.1, message := triple.2.1 }
  let artifact := triple.2.2.1
  let end_stream := triple.2.2.2
  [Op.updateStore taskId task_status (artifact.map fun a => [a]),
   Op.sendNotification taskId]
  ++ (match artifact with
      | some a => [Op.enqueueArtifactEvent taskId a]
      | none => [])
  ++ [Op.enqueueStatusEvent taskId task_status end_stream]

/-- The loop of `AgentTaskManager._run_streaming_agent`: process each
yielded increment in order; on any exception (pulling the next increment,
or mid way through an increment's operations) the except handler enqueues
a single `InternalError` event and the run stops. -/
def run_streaming_loop (taskId : String) (events : List RunEvent) : List Op :=
  match events with
  | [] => []
  | RunEvent.raiseOnNext :: _ => [Op.enqueueErrorEvent taskId]
  | RunEvent.yield item none :: rest =>
      stream_item_ops taskId item ++ run_streaming_loop taskId rest
  | RunEvent.yield item (some n) :: _ =>
      (stream_item_ops taskId item).take n ++ [Op.enqueueErrorEvent taskId]

/-- `AgentTaskManager._run_streaming_agent`: extracts the user query before
entering the try block — a query-extraction failure therefore escapes the
run uncaught (second component `true`) with no event enqueued. -/
def run_streaming_agent (params : TaskSendParams) (events : List RunEvent) :
    List Op × Bool :=
  match get_user_query params with
  | Except.error _ => ([], true)
  | Except.ok _ => (run_streaming_loop params.id events, false)

end AgentTaskManager

namespace MathAgentTaskManager

/-- External collaborators of `MathAgentTaskManager`
(`notebooks/math_agent_a2a.py`): the modality-compatibility check against
`MathAgent.SUPPORTED_CONTENT_TYPES`, the push-URL verification of the
always-present `notification_sender_auth`, and the agent's blocking
`invoke` (`Except.error m` models a raised exception with text `m`). -/
structure Env where
  compatible : List String → Bool
  verify : String → Bool
  invoke : String → Except String AgentResponse

/-- `MathAgentTaskManager._get_user_query`: identical to the finala2e
version — `message.parts[0]` must be a text part. -/
def get_user_query (params : TaskSendParams) : Except String String :=
  match params.message.parts with
  | [] => Except.error "list index out of range"
  | p :: _ =>
      match p with
      | Part.text s => Except.ok s
      | Part.other _ => Except.error "Only text parts are supported"

/-- `MathAgentTaskManager._validate_request`: identical to the finala2e
version. -/
def validate_request (env : Env) (params : TaskSendParams) : Option RpcError :=
  if env.compatible params.acceptedOutputModes = false then
    some RpcError.incompatibleTypes
  else
    match params.pushNotification with
    | some cfg =>
        if cfg.url = "" then
          some (RpcError.invalidParams "Push notification URL is missing")
        else none
    | none => none

/-- `MathAgentTaskManager.set_push_notification_info`: always verifies URL
ownership (the auth collaborator is unconditionally present), reporting
failure without persisting. -/
def set_push_notification_info (env : Env) (taskId : String)
    (cfg : PushNotificationConfig) : List Op × Bool :=
  if env.verify cfg.url then
    ([Op.verifyPushURL cfg.url, Op.persistPushConfig taskId cfg], true)
  else
    ([Op.verifyPushURL cfg.url], false)

/-- The push-registration step of the math send handlers. -/
def push_registration (env : Env) (params : TaskSendParams) : List Op × Bool :=
  match params.pushNotification with
  | some cfg => set_push_notification_info env params.id cfg
  | none => ([], true)

/-- `MathAgentTaskManager._process_agent_response`: like the finala2e
version, except that `agent_response["require_user_input"]` raises a
`KeyError` when the key is absent (`none` result). -/
def process_agent_response (params : TaskSendParams) (stored : Task)
    (resp : AgentResponse) : Option (List Op × Task) :=
  match resp.require_user_input with
  | none => none
  | some rui =>
      let parts := [Part.text resp.content]
      let pair : TaskStatus × Option Artifact :=
        if rui then
          ({ state := TaskState.INPUT_REQUIRED
             message := some { role := "agent", parts := parts } }, none)
        else
          ({ state := TaskState.COMPLETED }, some { parts := parts })
      let task_status := pair.1
      let artifact := pair.2
      let task := update_store stored task_status (artifact.map fun a => [a])
      let task_result := append_task_history task params.historyLength
      some ([Op.updateStore params.id task_status (artifact.map fun a => [a]),
             Op.sendNotification params.id], task_result)

/-- `MathAgentTaskManager.on_send_task`: validate; register a present push
config; upsert; set WORKING and notify; extract the query; the try block
covers only `agent.invoke`, and its handler re-raises a `ValueError`
instead of returning an error response; `_process_agent_response` runs
outside the try block. -/
def on_send_task (env : Env) (existing : Option Task)
    (params : TaskSendParams) : List Op × SendTaskOutcome :=
  match validate_request env params with
  | some e => ([], SendTaskOutcome.err e)
  | none =>
      let pushStep := push_registration env params
      if pushStep.2 = false then
        (pushStep.1, SendTaskOutcome.err
          (RpcError.invalidParams "Push notification URL is invalid"))
      else
        let task0 := upsert_task params existing
        let working : TaskStatus := { state := TaskState.WORKING }
        let task1 := update_store task0 working none
        let ops1 := pushStep.1 ++
          [Op.upsertTask params.id,
           Op.updateStore params.id working none,
           Op.sendNotification params.id]
        match get_user_query params with
        | Except.error m => (ops1, SendTaskOutcome.raised m)
        | Except.ok q =>
            match env.invoke q with
            | Except.error m =>
                (ops1, SendTaskOutcome.raised ("Error invoking agent: " ++ m))
            | Except.ok resp =>
                match process_agent_response params task1 resp with
                | none => (ops1, SendTaskOutcome.raised "KeyError: require_user_input")
                | some pr => (ops1 ++ pr.1, SendTaskOutcome.ok pr.2)

/-- `MathAgentTaskManager.on_send_task_subscribe`: validate, upsert the
task, then register a present push config (rejecting on failed
verification), set up the SSE consumer and spawn the streaming run. -/
def on_send_task_subscribe (env : Env) (params : TaskSendParams) :
    List Op × SubscribeOutcome :=
  match validate_request env params with
  | some e => ([], SubscribeOutcome.err e)
  | none =>
      let ops0 := [Op.upsertTask params.id]
      let pushStep := push_registration env params
      if pushStep.2 = false then
        (ops0 ++ pushStep.1, SubscribeOutcome.err
          (RpcError.invalidParams "Push notification URL is invalid"))
      else
        (ops0 ++ pushStep.1 ++
          [Op.setupSseConsumer params.id, Op.spawnStreamingRun params.id],
         SubscribeOutcome.stream)

/-- The body of `MathAgentTaskManager._run_streaming_agent`'s loop for one
increment: like the finala2e version, except `item["require_user_input"]`
raises a `KeyError` when the key is absent (`none` result). -/
def stream_item_ops (taskId : String) (item : StreamItem) : Option (List Op) :=
  match item.require_user_input with
  | none => none
  | some rui =>
      let parts := [Part.text item.content]
      let triple : TaskState × Option Message × Option Artifact × Bool :=
        if !item.is_task_complete && !rui then
          (TaskState.WORKING, some { role := "agent", parts := parts }, none, false)
        else if rui then
          (TaskState.INPUT_REQUIRED, some { role := "agent", parts := parts }, none, true)
        else
          (TaskState.COMPLETED, none, some { parts := parts, index := 0, append := false }, true)
      let task_status : TaskStatus := { state := triple.1, message := triple.2.1 }
      let artifact := triple.2.2.1
      let end_stream := triple.2.2.2
      some
        ([Op.updateStore taskId task_status (artifact.map fun a => [a]),
          Op.sendNotification taskId]
         ++ (match artifact with
             | some a => [Op.enqueueArtifactEvent taskId a]
             | none => [])
         ++ [Op.enqueueStatusEvent taskId task_status end_stream])

/-- The loop of `MathAgentTaskManager._run_streaming_agent`: a missing
`require_user_input` key raises inside the try block, so the except
handler enqueues the `InternalError` event in that case too. -/
def run_streaming_loop (taskId : String) (events : List RunEvent) : List Op :=
  match events with
  | [] => []
  | RunEvent.raiseOnNext :: _ => [Op.enqueueErrorEvent taskId]
  | RunEvent.yield item fault :: rest =>
      match stream_item_ops taskId item with
      | none => [Op.enqueueErrorEvent taskId]
      | some block =>
          match fault with
          | none => block ++ run_streaming_loop taskId rest
          | some n => block.take n ++ [Op.enqueueErrorEvent taskId]

/-- `MathAgentTaskManager._run_streaming_agent`: like the finala2e version,
the user query is extracted before the try block, so a query-extraction
failure escapes the run uncaught with no event enqueued. -/
def run_streaming_agent (params : TaskSendParams) (events : List RunEvent) :
    List Op × Bool :=
  match get_user_query params with
  | Except.error _ => ([], true)
  | Except.ok _ => (run_streaming_loop params.id events, false)

end MathAgentTaskManager

/-! Concrete fixtures used to instantiate the theorems below. -/

/-- A plain send request with a single text part and no push config. -/
def paramsPlain : TaskSendParams :=
  { id := "t1"
    sessionId := "s1"
    acceptedOutputModes := ["text"]
    message := { role := "user", parts := [Part.text "what is 2+2?"] } }

/-- A send request carrying a push-notification config. -/
def paramsPush : TaskSendParams :=
  { paramsPlain with pushNotification := some { url := "http://callback" } }

/-- A send request whose push-notification config has an empty URL. -/
def paramsPushNoURL : TaskSendParams :=
  { paramsPlain with pushNotification := some { url := "" } }

/-- A send request whose first message part is not a text part. -/
def paramsBadPart : TaskSendParams :=
  { paramsPlain with message := { role := "user", parts := [Part.other "file"] } }

/-- A send request with an empty message parts list. -/
def paramsEmptyMsg : TaskSendParams :=
  { paramsPlain with message := { role := "user", parts := [] } }

/-- A finala2e environment whose agent `invoke` raises. -/
def envInvokeFails : AgentTaskManager.Env :=
  { compatible := fun _ => true
    has_auth := false
    verify := fun _ => true
    invoke := fun _ => Except.error "boom" }

/-- A finala2e environment whose push-URL verification fails. -/
def envVerifyFails : AgentTaskManager.Env :=
  { compatible := fun _ => true
    has_auth := true
    verify := fun _ => false
    invoke := fun _ => Except.ok { content := "4", require_user_input := some false } }

/-- A finala2e environment where everything succeeds. -/
def envAllOk : AgentTaskManager.Env :=
  { compatible := fun _ => true
    has_auth := true
    verify := fun _ => true
    invoke := fun _ => Except.ok { content := "4", require_user_input := some false } }

/-- A math-manager environment whose agent `invoke` raises. -/
def menvInvokeFails : MathAgentTaskManager.Env :=
  { compatible := fun _ => true
    verify := fun _ => true
    invoke := fun _ => Except.error "boom" }

/-- A math-manager environment whose push-URL verification fails. -/
def menvVerifyFails : MathAgentTaskManager.Env :=
  { compatible := fun _ => true
    verify := fun _ => false
    invoke := fun _ => Except.ok { content := "4", require_user_input := some false } }

/-- A working stream increment fixture. -/
def itemWorking : StreamItem :=
  { is_task_complete := false, require_user_input := some false, content := "Calculating..." }

/-- An input-required stream increment fixture. -/
def itemInput : StreamItem :=
  { is_task_complete := false, require_user_input := some true, content := "Which numbers?" }

/-- A completed stream increment fixture. -/
def itemDone : StreamItem :=
  { is_task_complete := true, require_user_input := some false, content := "4" }

/-- The math manager's per-increment operations coincide with the finala2e
manager's whenever the `require_user_input` key is present. -/
lemma stream_item_ops_agree (tid : String) (item : StreamItem) (r : Bool)
    (hr : item.require_user_input = some r) :
    MathAgentTaskManager.stream_item_ops tid item =
      some (AgentTaskManager.stream_item_ops tid item) := by
  simp [AgentTaskManager.stream_item_ops, MathAgentTaskManager.stream_item_ops, hr]

/-- No per-increment operation of the finala2e streaming loop is an error
event. -/
lemma error_not_mem_stream_item_ops (tid tid' : String) (item : StreamItem) :
    Op.enqueueErrorEvent tid' ∉ AgentTaskManager.stream_item_ops tid item := by
  unfold AgentTaskManager.stream_item_ops
  rcases item.is_task_complete <;> rcases hr : item.require_user_input.getD false <;>
    simp [hr]

/-- `storeWrites` distributes over trace concatenation. -/
lemma storeWrites_append (l₁ l₂ : List Op) :
    storeWrites (l₁ ++ l₂) = storeWrites l₁ ++ storeWrites l₂ :=
  List.filter_append _ _

/-- The two managers share one `_get_user_query` implementation. -/
lemma math_get_user_query_eq :
    MathAgentTaskManager.get_user_query = AgentTaskManager.get_user_query := rfl

/-- The finala2e push-registration step never writes to the task store. -/
lemma push_registration_storeWrites (env : AgentTaskManager.Env)
    (params : TaskSendParams) :
    storeWrites (AgentTaskManager.push_registration env params).1 = [] := by
  unfold AgentTaskManager.push_registration
  cases params.pushNotification with
  | none => rfl
  | some cfg =>
      unfold AgentTaskManager.set_push_notification_info
      by_cases ha : env.has_auth <;> by_cases hv : env.verify cfg.url <;>
        simp [ha, hv, storeWrites, Op.isStoreWrite]

/-- The math push-registration step never writes to the task store. -/
lemma math_push_registration_storeWrites (env : MathAgentTaskManager.Env)
    (params : TaskSendParams) :
    storeWrites (MathAgentTaskManager.push_registration env params).1 = [] := by
  unfold MathAgentTaskManager.push_registration
  cases params.pushNotification with
  | none => rfl
  | some cfg =>
      unfold MathAgentTaskManager.set_push_notification_info
      by_cases hv : env.verify cfg.url <;>
        simp [hv, storeWrites, Op.isStoreWrite]

/-- When the finala2e push registration fails, a config was present and the
only operation performed was the failed URL verification: nothing was
persisted, upserted or written. -/
lemma push_registration_false (env : AgentTaskManager.Env)
    (params : TaskSendParams)
    (h : (AgentTaskManager.push_registration env params).2 = false) :
    ∃ cfg, params.pushNotification = some cfg ∧
      (AgentTaskManager.push_registration env params).1 = [Op.verifyPushURL cfg.url] := by
  unfold AgentTaskManager.push_registration at h ⊢
  cases hp : params.pushNotification with
  | none => rw [hp] at h; exact absurd h (by simp)
  | some cfg =>
      rw [hp] at h
      refine ⟨cfg, rfl, ?_⟩
      unfold AgentTaskManager.set_push_notification_info at h ⊢
      by_cases ha : env.has_auth <;> by_cases hv : env.verify cfg.url <;>
        simp [ha, hv] at h ⊢

/-- Math version of `push_registration_false`. -/
lemma math_push_registration_false (env : MathAgentTaskManager.Env)
    (params : TaskSendParams)
    (h : (MathAgentTaskManager.push_registration env params).2 = false) :
    ∃ cfg, params.pushNotification = some cfg ∧
      (MathAgentTaskManager.push_registration env params).1 = [Op.verifyPushURL cfg.url] := by
  unfold MathAgentTaskManager.push_registration at h ⊢
  cases hp : params.pushNotification with
  | none => rw [hp] at h; exact absurd h (by simp)
  | some cfg =>
      rw [hp] at h
      refine ⟨cfg, rfl, ?_⟩
      unfold MathAgentTaskManager.set_push_notification_info at h ⊢
      by_cases hv : env.verify cfg.url <;> simp [hv] at h ⊢

/-- Every store write of a finala2e streaming increment carries WORKING,
INPUT_REQUIRED or COMPLETED. -/
lemma stream_item_ops_state_mem (tid tid' : String) (item : StreamItem)
    (st : TaskStatus) (a : Option (List Artifact))
    (h : Op.updateStore tid' st a ∈ AgentTaskManager.stream_item_ops tid item) :
    st.state = TaskState.WORKING ∨ st.state = TaskState.INPUT_REQUIRED ∨
      st.state = TaskState.COMPLETED := by
  unfold AgentTaskManager.stream_item_ops at h
  rcases hc : item.is_task_complete <;>
    rcases hr : item.require_user_input.getD false <;>
      simp [hc, hr] at h
  · obtain ⟨-, rfl, -⟩ := h
    simp
  · obtain ⟨-, rfl, -⟩ := h
    simp
  · obtain ⟨-, rfl, -⟩ := h
    simp
  · obtain ⟨-, rfl, -⟩ := h
    simp

/-- Every store write of the finala2e streaming loop carries WORKING,
INPUT_REQUIRED or COMPLETED. -/
lemma run_loop_state_mem (tid tid' : String) (events : List RunEvent)
    (st : TaskStatus) (a : Option (List Artifact))
    (h : Op.updateStore tid' st a ∈ AgentTaskManager.run_streaming_loop tid events) :
    st.state = TaskState.WORKING ∨ st.state = TaskState.INPUT_REQUIRED ∨
      st.state = TaskState.COMPLETED := by
  induction events with
  | nil => simp [AgentTaskManager.run_streaming_loop] at h
  | cons e rest ih =>
      cases e with
      | raiseOnNext => simp [AgentTaskManager.run_streaming_loop] at h
      | yield item fault =>
          cases fault with
          | none =>
              rw [AgentTaskManager.run_streaming_loop] at h
              rcases List.mem_append.mp h with h | h
              · exact stream_item_ops_state_mem tid tid' item st a h
              · exact ih h
          | some n =>
              rw [AgentTaskManager.run_streaming_loop] at h
              rcases List.mem_append.mp h with h | h
              · exact stream_item_ops_state_mem tid tid' item st a
                  (List.mem_of_mem_take h)
              · simp at h

/-- Every store write of the math streaming loop carries WORKING,
INPUT_REQUIRED or COMPLETED. -/
lemma math_run_loop_state_mem (tid tid' : String) (events : List RunEvent)
    (st : TaskStatus) (a : Option (List Artifact))
    (h : Op.updateStore tid' st a ∈ MathAgentTaskManager.run_streaming_loop tid events) :
    st.state = TaskState.WORKING ∨ st.state = TaskState.INPUT_REQUIRED ∨
      st.state = TaskState.COMPLETED := by
  induction events with
  | nil => simp [MathAgentTaskManager.run_streaming_loop] at h
  | cons e rest ih =>
      cases e with
      | raiseOnNext => simp [MathAgentTaskManager.run_streaming_loop] at h
      | yield item fault =>
          cases hops : MathAgentTaskManager.stream_item_ops tid item with
          | none =>
              rw [MathAgentTaskManager.run_streaming_loop, hops] at h
              simp at h
          | some block =>
              have hba : block = AgentTaskManager.stream_item_ops tid item := by
                rcases hkey : item.require_user_input with _ | r
                · rw [MathAgentTaskManager.stream_item_ops, hkey] at hops
                  exact absurd hops (by simp)
                · have hagree := stream_item_ops_agree tid item r hkey
                  rw [hops] at hagree
                  exact Option.some_inj.mp hagree
              subst hba
              cases fault with
              | none =>
                  rw [MathAgentTaskManager.run_streaming_loop, hops] at h
                  rcases List.mem_append.mp h with h | h
                  · exact stream_item_ops_state_mem tid tid' item st a h
                  · exact ih h
              | some n =>
                  rw [MathAgentTaskManager.run_streaming_loop, hops] at h
                  rcases List.mem_append.mp h with h | h
                  · exact stream_item_ops_state_mem tid tid' item st a
                      (List.mem_of_mem_take h)
                  · simp at h

/-- Every store write of the finala2e `_process_agent_response` carries
INPUT_REQUIRED or COMPLETED. -/
lemma process_state_mem (params : TaskSendParams) (stored : Task)
    (resp : AgentResponse) (tid' : String) (st : TaskStatus)
    (a : Option (List Artifact))
    (h : Op.updateStore tid' st a ∈
      (AgentTaskManager.process_agent_response params stored resp).1) :
    st.state = TaskState.INPUT_REQUIRED ∨ st.state = TaskState.COMPLETED := by
  unfold AgentTaskManager.process_agent_response at h
  rcases hr : resp.require_user_input.getD false <;> simp [hr] at h
  · obtain ⟨-, rfl, -⟩ := h
    simp
  · obtain ⟨-, rfl, -⟩ := h
    simp

/-- Every store write of the math `_process_agent_response` carries
INPUT_REQUIRED or COMPLETED. -/
lemma math_process_state_mem (params : TaskSendParams) (stored : Task)
    (resp : AgentResponse) (tid' : String) (st : TaskStatus)
    (a : Option (List Artifact)) (pr : List Op × Task)
    (hpr : MathAgentTaskManager.process_agent_response params stored resp = some pr)
    (h : Op.updateStore tid' st a ∈ pr.1) :
    st.state = TaskState.INPUT_REQUIRED ∨ st.state = TaskState.COMPLETED := by
  rcases hkey : resp.require_user_input with _ | rui
  · rw [MathAgentTaskManager.process_agent_response, hkey] at hpr
    exact absurd hpr (by simp)
  · rw [MathAgentTaskManager.process_agent_response, hkey] at hpr
    obtain rfl := Option.some_inj.mp hpr
    cases rui <;> simp at h
    · obtain ⟨-, rfl, -⟩ := h
      simp
    · obtain ⟨-, rfl, -⟩ := h
      simp

/-- Every store write of the finala2e `on_send_task` carries WORKING,
INPUT_REQUIRED or COMPLETED. -/
lemma on_send_task_state_mem (env : AgentTaskManager.Env)
    (existing : Option Task) (params : TaskSendParams) (tid' : String)
    (st : TaskStatus) (a : Option (List Artifact))
    (h : Op.updateStore tid' st a ∈
      (AgentTaskManager.on_send_task env existing params).1) :
    st.state = TaskState.WORKING ∨ st.state = TaskState.INPUT_REQUIRED ∨
      st.state = TaskState.COMPLETED := by
  have hpush : Op.updateStore tid' st a ∉
      (AgentTaskManager.push_registration env params).1 := by
    intro hmem
    have h2 : Op.updateStore tid' st a ∈
        storeWrites (AgentTaskManager.push_registration env params).1 :=
      List.mem_filter.mpr ⟨hmem, rfl⟩
    rw [push_registration_storeWrites] at h2
    simp at h2
  rw [AgentTaskManager.on_send_task] at h
  cases hval : AgentTaskManager.validate_request env params with
  | some e => rw [hval] at h; simp at h
  | none =>
      rw [hval] at h
      simp only at h
      cases hpr : (AgentTaskManager.push_registration env params).2 with
      | false =>
          rw [hpr] at h
          simp only [if_pos rfl] at h
          exact absurd h hpush
      | true =>
          rw [hpr] at h
          simp only [Bool.true_eq_false, if_false] at h
          cases hq : AgentTaskManager.get_user_query params with
          | error m =>
              simp only [hq] at h
              rcases List.mem_append.mp h with h | h
              · exact absurd h hpush
              · simp at h
                obtain ⟨-, rfl, -⟩ := h
                simp
          | ok q =>
              cases hi : env.invoke q with
              | error m =>
                  simp only [hq, hi] at h
                  rcases List.mem_append.mp h with h | h
                  · exact absurd h hpush
                  · simp at h
                    obtain ⟨-, rfl, -⟩ := h
                    simp
              | ok resp0 =>
                  simp only [hq, hi] at h
                  rcases List.mem_append.mp h with h | h
                  · rcases List.mem_append.mp h with h | h
                    · exact absurd h hpush
                    · simp at h
                      obtain ⟨-, rfl, -⟩ := h
                      simp
                  · rcases process_state_mem _ _ _ _ _ _ h with h | h
                    · exact Or.inr (Or.inl h)
                    · exact Or.inr (Or.inr h)

/-- Every store write of the math `on_send_task` carries WORKING,
INPUT_REQUIRED or COMPLETED. -/
lemma math_on_send_task_state_mem (env : MathAgentTaskManager.Env)
    (existing : Option Task) (params : TaskSendParams) (tid' : String)
    (st : TaskStatus) (a : Option (List Artifact))
    (h : Op.updateStore tid' st a ∈
      (MathAgentTaskManager.on_send_task env existing params).1) :
    st.state = TaskState.WORKING ∨ st.state = TaskState.INPUT_REQUIRED ∨
      st.state = TaskState.COMPLETED := by
  have hpush : Op.updateStore tid' st a ∉
      (MathAgentTaskManager.push_registration env params).1 := by
    intro hmem
    have h2 : Op.updateStore tid' st a ∈
        storeWrites (MathAgentTaskManager.push_registration env params).1 :=
      List.mem_filter.mpr ⟨hmem, rfl⟩
    rw [math_push_registration_storeWrites] at h2
    simp at h2
  rw [MathAgentTaskManager.on_send_task] at h
  cases hval : MathAgentTaskManager.validate_request env params with
  | some e => rw [hval] at h; simp at h
  | none =>
      rw [hval] at h
      simp only at h
      cases hpr : (MathAgentTaskManager.push_registration env params).2 with
      | false =>
          rw [hpr] at h
          simp only [if_pos rfl] at h
          exact absurd h hpush
      | true =>
          rw [hpr] at h
          simp only [Bool.true_eq_false, if_false] at h
          cases hq : MathAgentTaskManager.get_user_query params with
          | error m =>
              simp only [hq] at h
              rcases List.mem_append.mp h with h | h
              · exact absurd h hpush
              · simp at h
                obtain ⟨-, rfl, -⟩ := h
                simp
          | ok q =>
              cases hi : env.invoke q with
              | error m =>
                  simp only [hq, hi] at h
                  rcases List.mem_append.mp h with h | h
                  · exact absurd h hpush
                  · simp at h
                    obtain ⟨-, rfl, -⟩ := h
                    simp
              | ok resp0 =>
                  cases hproc : MathAgentTaskManager.process_agent_response params
                      (update_store (upsert_task params existing)
                        { state := TaskState.WORKING } none) resp0 with
                  | none =>
                      simp only [hq, hi, hproc] at h
                      rcases List.mem_append.mp h with h | h
                      · exact absurd h hpush
                      · simp at h
                        obtain ⟨-, rfl, -⟩ := h
                        simp
                  | some pr =>
                      simp only [hq, hi, hproc] at h
                      rcases List.mem_append.mp h with h | h
                      · rcases List.mem_append.mp h with h | h
                        · exact absurd h hpush
                        · simp at h
                          obtain ⟨-, rfl, -⟩ := h
                          simp
                      · rcases math_process_state_mem _ _ _ _ _ _ _ hproc h with h | h
                        · exact Or.inr (Or.inl h)
                        · exact Or.inr (Or.inr h)

/-- The finala2e streaming loop processes a faultless prefix of increments
into its blocks and continues with the remaining events. -/
lemma run_loop_append_clean (tid : String) (items : List StreamItem)
    (rest : List RunEvent) :
    AgentTaskManager.run_streaming_loop tid
        (items.map (fun i => RunEvent.yield i none) ++ rest) =
      (items.map (AgentTaskManager.stream_item_ops tid)).flatten ++
        AgentTaskManager.run_streaming_loop tid rest := by
  induction items with
  | nil => simp
  | cons i items ih =>
      simp [AgentTaskManager.run_streaming_loop, ih]

/-- The math streaming loop processes a faultless prefix of increments that
all carry the `require_user_input` key into the same blocks as the
finala2e loop and continues with the remaining events. -/
lemma math_run_loop_append_clean (tid : String) (items : List StreamItem)
    (rest : List RunEvent)
    (hkeys : ∀ i ∈ items, i.require_user_input ≠ none) :
    MathAgentTaskManager.run_streaming_loop tid
        (items.map (fun i => RunEvent.yield i none) ++ rest) =
      (items.map (AgentTaskManager.stream_item_ops tid)).flatten ++
        MathAgentTaskManager.run_streaming_loop tid rest := by
  induction items with
  | nil => simp
  | cons i items ih =>
      have hkey : i.require_user_input ≠ none := hkeys i (by simp)
      rcases hr : i.require_user_input with _ | r
      · exact absurd hr hkey
      · have hagree := stream_item_ops_agree tid i r hr
        have ih' := ih (fun j hj => hkeys j (List.mem_cons_of_mem _ hj))
        simp [MathAgentTaskManager.run_streaming_loop, hagree, ih']

/-- **C10.** The user query is taken exclusively from the first part of the
request message: whenever the first part is a text part, `_get_user_query`
of either task manager returns its text, whatever parts (text or not)
follow — the tail of the parts list is silently ignored and never causes
an error. -/
theorem claim10_first_part_only (id sid roleStr t : String)
    (modes : List String) (rest : List Part)
    (push : Option PushNotificationConfig) (hl : Option Nat) :
    AgentTaskManager.get_user_query
      { id := id, sessionId := sid, acceptedOutputModes := modes
        message := { role := roleStr, parts := Part.text t :: rest }
        pushNotification := push, historyLength := hl } = Except.ok t ∧
    MathAgentTaskManager.get_user_query
      { id := id, sessionId := sid, acceptedOutputModes := modes
        message := { role := roleStr, parts := Part.text t :: rest }
        pushNotification := push, historyLength := hl } = Except.ok t := by
  exact ⟨rfl, rfl⟩

/-- **C2.** For every increment of the streaming run (both managers):
neither complete nor requiring user input (the `require_user_input` key
read with a false default by the finala2e manager) updates the task to
WORKING with the content as an agent message and enqueues a non-final
status event and no artifact event; requiring user input updates to
INPUT_REQUIRED with a message and a final status event; the remaining
case — complete without requiring user input, as the requires-input case
takes precedence — updates to COMPLETED with an artifact carrying the
content, no status message, and a final status event.  The math manager
produces the identical operations whenever the `require_user_input` key is
present. -/
theorem claim2_stream_increment_mapping (tid : String) (item : StreamItem) :
    (item.is_task_complete = false → item.require_user_input.getD false = false →
      AgentTaskManager.stream_item_ops tid item =
        [Op.updateStore tid
           { state := TaskState.WORKING
             message := some { role := "agent", parts := [Part.text item.content] } } none,
         Op.sendNotification tid,
         Op.enqueueStatusEvent tid
           { state := TaskState.WORKING
             message := some { role := "agent", parts := [Part.text item.content] } } false]) ∧
    (item.require_user_input.getD false = true →
      AgentTaskManager.stream_item_ops tid item =
        [Op.updateStore tid
           { state := TaskState.INPUT_REQUIRED
             message := some { role := "agent", parts := [Part.text item.content] } } none,
         Op.sendNotification tid,
         Op.enqueueStatusEvent tid
           { state := TaskState.INPUT_REQUIRED
             message := some { role := "agent", parts := [Part.text item.content] } } true]) ∧
    (item.is_task_complete = true → item.require_user_input.getD false = false →
      AgentTaskManager.stream_item_ops tid item =
        [Op.updateStore tid { state := TaskState.COMPLETED, message := none }
           (some [{ parts := [Part.text item.content] }]),
         Op.sendNotification tid,
         Op.enqueueArtifactEvent tid { parts := [Part.text item.content] },
         Op.enqueueStatusEvent tid { state := TaskState.COMPLETED, message := none } true]) ∧
    (∀ r, item.require_user_input = some r →
      MathAgentTaskManager.stream_item_ops tid item =
        some (AgentTaskManager.stream_item_ops tid item)) := by
  refine ⟨?_, ?_, ?_, ?_⟩
  · intro hc hr
    simp [AgentTaskManager.stream_item_ops, hc, hr]
  · intro hr
    simp [AgentTaskManager.stream_item_ops, hr]
  · intro hc hr
    simp [AgentTaskManager.stream_item_ops, hc, hr]
  · intro r hr
    simp [AgentTaskManager.stream_item_ops, MathAgentTaskManager.stream_item_ops, hr]

/-- Witness for C2: the three increment shapes evaluated concretely. -/
theorem claim2_stream_increment_mapping_witness :
    AgentTaskManager.stream_item_ops "t1" itemWorking =
      [Op.updateStore "t1"
         { state := TaskState.WORKING
           message := some { role := "agent", parts := [Part.text "Calculating..."] } } none,
       Op.sendNotification "t1",
       Op.enqueueStatusEvent "t1"
         { state := TaskState.WORKING
           message := some { role := "agent", parts := [Part.text "Calculating..."] } } false] ∧
    AgentTaskManager.stream_item_ops "t1" itemInput =
      [Op.updateStore "t1"
         { state := TaskState.INPUT_REQUIRED
           message := some { role := "agent", parts := [Part.text "Which numbers?"] } } none,
       Op.sendNotification "t1",
       Op.enqueueStatusEvent "t1"
         { state := TaskState.INPUT_REQUIRED
           message := some { role := "agent", parts := [Part.text "Which numbers?"] } } true] ∧
    AgentTaskManager.stream_item_ops "t1" itemDone =
      [Op.updateStore "t1" { state := TaskState.COMPLETED, message := none }
         (some [{ parts := [Part.text "4"] }]),
       Op.sendNotification "t1",
       Op.enqueueArtifactEvent "t1" { parts := [Part.text "4"] },
       Op.enqueueStatusEvent "t1" { state := TaskState.COMPLETED, message := none } true] ∧
    MathAgentTaskManager.stream_item_ops "t1" itemDone =
      some (AgentTaskManager.stream_item_ops "t1" itemDone) :=
  ⟨(claim2_stream_increment_mapping "t1" itemWorking).1 rfl rfl,
   (claim2_stream_increment_mapping "t1" itemInput).2.1 rfl,
   (claim2_stream_increment_mapping "t1" itemDone).2.2.1 rfl rfl,
   (claim2_stream_increment_mapping "t1" itemDone).2.2.2 false rfl⟩

/-- **C3.** In the streaming run, the trace of a faultless run is exactly
the concatenation of the per-increment operation blocks, in stream order,
and every increment's block is strictly ordered: the `update_store` call
first, then the push notification, then — exactly when an artifact was
produced — the `TaskArtifactUpdateEvent`, and the `TaskStatusUpdateEvent`
last. -/
theorem claim3_stream_operation_order (tid : String) (items : List StreamItem) :
    AgentTaskManager.run_streaming_loop tid
        (items.map (fun i => RunEvent.yield i none)) =
      (items.map (AgentTaskManager.stream_item_ops tid)).flatten ∧
    ∀ item : StreamItem,
      ((item.is_task_complete && !(item.require_user_input.getD false)) = true ∧
        ∃ st a fin, AgentTaskManager.stream_item_ops tid item =
          [Op.updateStore tid st (some [a]), Op.sendNotification tid,
           Op.enqueueArtifactEvent tid a, Op.enqueueStatusEvent tid st fin]) ∨
      ((item.is_task_complete && !(item.require_user_input.getD false)) = false ∧
        ∃ st fin, AgentTaskManager.stream_item_ops tid item =
          [Op.updateStore tid st none, Op.sendNotification tid,
           Op.enqueueStatusEvent tid st fin]) := by
  constructor
  · induction items with
    | nil => simp [AgentTaskManager.run_streaming_loop]
    | cons i rest ih =>
        simp [AgentTaskManager.run_streaming_loop, ih]
  · intro item
    rcases hc : item.is_task_complete <;>
      rcases hr : item.require_user_input.getD false
    · exact Or.inr ⟨by simp [hc, hr],
        { state := TaskState.WORKING
          message := some { role := "agent", parts := [Part.text item.content] } }, false,
        by simp [AgentTaskManager.stream_item_ops, hc, hr]⟩
    · exact Or.inr ⟨by simp [hc, hr],
        { state := TaskState.INPUT_REQUIRED
          message := some { role := "agent", parts := [Part.text item.content] } }, true,
        by simp [AgentTaskManager.stream_item_ops, hc, hr]⟩
    · exact Or.inl ⟨by simp [hc, hr],
        { state := TaskState.COMPLETED, message := none },
        { parts := [Part.text item.content] }, true,
        by simp [AgentTaskManager.stream_item_ops, hc, hr]⟩
    · exact Or.inr ⟨by simp [hc, hr],
        { state := TaskState.INPUT_REQUIRED
          message := some { role := "agent", parts := [Part.text item.content] } }, true,
        by simp [AgentTaskManager.stream_item_ops, hc, hr]⟩

/-- **C4 (amended).** For both managers' streaming loops, any exception
inside the loop is caught and a single `InternalError` event is enqueued
as the final operation of the run, which then stops: after any faultless
prefix of increments, a raise while pulling the next increment, a raise
part way through an increment's operations (covering `update_store`, the
notification and the enqueues), or — math manager — a missing
`require_user_input` key, each produce exactly the prefix's blocks, the
increment's completed operations, and the error event, with the rest of
the stream never processed; in every run at most one error event appears
and, whenever it does, it is the very last operation, so no store write
(no FAILED or other status) happens after the exception and the store
keeps the last durably written status.  (The amendment is forced by the
counterexample below: an exception from the initial query extraction
happens before the try block, escapes the run uncaught, and enqueues
nothing.) -/
theorem claim4_stream_failure_confinement (tid : String) :
    (∀ events : List RunEvent,
      (AgentTaskManager.run_streaming_loop tid events).count
          (Op.enqueueErrorEvent tid) ≤ 1 ∧
      (Op.enqueueErrorEvent tid ∈ AgentTaskManager.run_streaming_loop tid events →
        (AgentTaskManager.run_streaming_loop tid events).getLast? =
          some (Op.enqueueErrorEvent tid)) ∧
      (MathAgentTaskManager.run_streaming_loop tid events).count
          (Op.enqueueErrorEvent tid) ≤ 1 ∧
      (Op.enqueueErrorEvent tid ∈ MathAgentTaskManager.run_streaming_loop tid events →
        (MathAgentTaskManager.run_streaming_loop tid events).getLast? =
          some (Op.enqueueErrorEvent tid))) ∧
    (∀ (items : List StreamItem) (rest : List RunEvent),
      AgentTaskManager.run_streaming_loop tid
          (items.map (fun i => RunEvent.yield i none) ++ RunEvent.raiseOnNext :: rest) =
        (items.map (AgentTaskManager.stream_item_ops tid)).flatten ++
          [Op.enqueueErrorEvent tid]) ∧
    (∀ (items : List StreamItem) (item : StreamItem) (n : Nat) (rest : List RunEvent),
      AgentTaskManager.run_streaming_loop tid
          (items.map (fun i => RunEvent.yield i none) ++
            RunEvent.yield item (some n) :: rest) =
        (items.map (AgentTaskManager.stream_item_ops tid)).flatten ++
          (AgentTaskManager.stream_item_ops tid item).take n ++
          [Op.enqueueErrorEvent tid]) ∧
    (∀ (items : List StreamItem) (rest : List RunEvent),
      (∀ i ∈ items, i.require_user_input ≠ none) →
      MathAgentTaskManager.run_streaming_loop tid
          (items.map (fun i => RunEvent.yield i none) ++ RunEvent.raiseOnNext :: rest) =
        (items.map (AgentTaskManager.stream_item_ops tid)).flatten ++
          [Op.enqueueErrorEvent tid]) ∧
    (∀ (items : List StreamItem) (item : StreamItem) (fault : Option Nat)
        (rest : List RunEvent),
      (∀ i ∈ items, i.require_user_input ≠ none) →
      item.require_user_input = none →
      MathAgentTaskManager.run_streaming_loop tid
          (items.map (fun i => RunEvent.yield i none) ++
            RunEvent.yield item fault :: rest) =
        (items.map (AgentTaskManager.stream_item_ops tid)).flatten ++
          [Op.enqueueErrorEvent tid]) ∧
    (∀ (items : List StreamItem) (item : StreamItem) (r : Bool) (n : Nat)
        (rest : List RunEvent),
      (∀ i ∈ items, i.require_user_input ≠ none) →
      item.require_user_input = some r →
      MathAgentTaskManager.run_streaming_loop tid
          (items.map (fun i => RunEvent.yield i none) ++
            RunEvent.yield item (some n) :: rest) =
        (items.map (AgentTaskManager.stream_item_ops tid)).flatten ++
          (AgentTaskManager.stream_item_ops tid item).take n ++
          [Op.enqueueErrorEvent tid]) := by
  refine ⟨?_, ?_, ?_, ?_, ?_, ?_⟩
  · intro events
    induction events with
      | nil =>
          simp [AgentTaskManager.run_streaming_loop, MathAgentTaskManager.run_streaming_loop]
      | cons e rest ih =>
          obtain ⟨ih1, ih2, ih3, ih4⟩ := ih
          cases e with
          | raiseOnNext =>
              simp [AgentTaskManager.run_streaming_loop,
                MathAgentTaskManager.run_streaming_loop]
          | yield item fault =>
              have hblock := error_not_mem_stream_item_ops tid tid item
              have htake : ∀ n, Op.enqueueErrorEvent tid ∉
                  (AgentTaskManager.stream_item_ops tid item).take n := by
                intro n hmem
                exact hblock (List.mem_of_mem_take hmem)
              refine ⟨?_, ?_, ?_, ?_⟩
              · cases fault with
                | none =>
                    simpa [AgentTaskManager.run_streaming_loop, List.count_append,
                      List.count_eq_zero.mpr hblock] using ih1
                | some n =>
                    simp [AgentTaskManager.run_streaming_loop, List.count_append,
                      List.count_eq_zero.mpr (htake n)]
              · cases fault with
                | none =>
                    intro hmem
                    rw [AgentTaskManager.run_streaming_loop] at hmem ⊢
                    have hmem' : Op.enqueueErrorEvent tid ∈
                        AgentTaskManager.run_streaming_loop tid rest := by
                      rcases List.mem_append.mp hmem with h | h
                      · exact absurd h hblock
                      · exact h
                    rw [List.getLast?_append_of_ne_nil _ (List.ne_nil_of_mem hmem')]
                    exact ih2 hmem'
                | some n =>
                    intro _
                    simp [AgentTaskManager.run_streaming_loop]
              · cases hops : MathAgentTaskManager.stream_item_ops tid item with
                | none =>
                    simp [MathAgentTaskManager.run_streaming_loop, hops]
                | some block =>
                    have hblockm : Op.enqueueErrorEvent tid ∉ block := by
                      rcases hkey : item.require_user_input with _ | r
                      · rw [MathAgentTaskManager.stream_item_ops, hkey] at hops
                        exact absurd hops (by simp)
                      · have := stream_item_ops_agree tid item r hkey
                        rw [hops] at this
                        have hbe : block = AgentTaskManager.stream_item_ops tid item :=
                          Option.some_inj.mp this
                        subst hbe
                        exact hblock
                    cases fault with
                    | none =>
                        simpa [MathAgentTaskManager.run_streaming_loop, hops,
                          List.count_append, List.count_eq_zero.mpr hblockm] using ih3
                    | some n =>
                        have : Op.enqueueErrorEvent tid ∉ block.take n := by
                          intro hmem
                          exact hblockm (List.mem_of_mem_take hmem)
                        simp [MathAgentTaskManager.run_streaming_loop, hops,
                          List.count_append, List.count_eq_zero.mpr this]
              · cases hops : MathAgentTaskManager.stream_item_ops tid item with
                | none =>
                    intro _
                    simp [MathAgentTaskManager.run_streaming_loop, hops]
                | some block =>
                    have hblockm : Op.enqueueErrorEvent tid ∉ block := by
                      rcases hkey : item.require_user_input with _ | r
                      · rw [MathAgentTaskManager.stream_item_ops, hkey] at hops
                        exact absurd hops (by simp)
                      · have := stream_item_ops_agree tid item r hkey
                        rw [hops] at this
                        have hbe : block = AgentTaskManager.stream_item_ops tid item :=
                          Option.some_inj.mp this
                        subst hbe
                        exact hblock
                    cases fault with
                    | none =>
                        intro hmem
                        rw [MathAgentTaskManager.run_streaming_loop, hops] at hmem ⊢
                        have hmem' : Op.enqueueErrorEvent tid ∈
                            MathAgentTaskManager.run_streaming_loop tid rest := by
                          rcases List.mem_append.mp hmem with h | h
                          · exact absurd h hblockm
                          · exact h
                        rw [List.getLast?_append_of_ne_nil _ (List.ne_nil_of_mem hmem')]
                        exact ih4 hmem'
                    | some n =>
                        intro _
                        simp [MathAgentTaskManager.run_streaming_loop, hops]
  · intro items rest
    rw [run_loop_append_clean]
    rfl
  · intro items item n rest
    rw [run_loop_append_clean, List.append_assoc]
    rfl
  · intro items rest hkeys
    rw [math_run_loop_append_clean tid items _ hkeys]
    rfl
  · intro items item fault rest hkeys hkey
    rw [math_run_loop_append_clean tid items _ hkeys]
    have hops : MathAgentTaskManager.stream_item_ops tid item = none := by
      rw [MathAgentTaskManager.stream_item_ops, hkey]
    cases fault <;>
      simp [MathAgentTaskManager.run_streaming_loop, hops]
  · intro items item r n rest hkeys hkey
    rw [math_run_loop_append_clean tid items _ hkeys, List.append_assoc]
    have hagree := stream_item_ops_agree tid item r hkey
    simp [MathAgentTaskManager.run_streaming_loop, hagree]

/-- Witness for C4: a fault during the second increment's operations (after
its store write) enqueues the error event right after the completed
operations and stops; a math run whose second increment lacks the
`require_user_input` key does the same; and a run whose stream raises
immediately leaves the error event as its last operation. -/
theorem claim4_stream_failure_confinement_witness :
    AgentTaskManager.run_streaming_loop "t1"
        [RunEvent.yield itemWorking none, RunEvent.yield itemDone (some 1)] =
      [Op.updateStore "t1"
         { state := TaskState.WORKING
           message := some { role := "agent", parts := [Part.text "Calculating..."] } } none,
       Op.sendNotification "t1",
       Op.enqueueStatusEvent "t1"
         { state := TaskState.WORKING
           message := some { role := "agent", parts := [Part.text "Calculating..."] } } false,
       Op.updateStore "t1" { state := TaskState.COMPLETED, message := none }
         (some [{ parts := [Part.text "4"] }]),
       Op.enqueueErrorEvent "t1"] ∧
    MathAgentTaskManager.run_streaming_loop "t1"
        [RunEvent.yield itemWorking none,
         RunEvent.yield
           { is_task_complete := false, require_user_input := none, content := "?" }
           none] =
      [Op.updateStore "t1"
         { state := TaskState.WORKING
           message := some { role := "agent", parts := [Part.text "Calculating..."] } } none,
       Op.sendNotification "t1",
       Op.enqueueStatusEvent "t1"
         { state := TaskState.WORKING
           message := some { role := "agent", parts := [Part.text "Calculating..."] } } false,
       Op.enqueueErrorEvent "t1"] ∧
    (AgentTaskManager.run_streaming_loop "t1" [RunEvent.raiseOnNext]).getLast? =
      some (Op.enqueueErrorEvent "t1") := by
  refine ⟨?_, ?_, ?_⟩
  · have h := (claim4_stream_failure_confinement "t1").2.2.1 [itemWorking] itemDone 1 []
    exact h.trans (by decide)
  · have h := (claim4_stream_failure_confinement "t1").2.2.2.2.1 [itemWorking]
      { is_task_complete := false, require_user_input := none, content := "?" } none []
      (by decide) rfl
    exact h.trans (by decide)
  · exact ((claim4_stream_failure_confinement "t1").1 [RunEvent.raiseOnNext]).2.1 (by decide)

/-- **C5.** Whenever `on_send_task` rejects a request — incompatible output
modes, a present push config with an empty URL, or failed push-URL
verification — it returns the corresponding JSON-RPC error
(IncompatibleTypes or InvalidParams) with, respectively, an empty trace or
only the failed verification: no task is upserted or mutated in the store
and no push config is persisted.  The final conjunct states this for every
rejection: any error response other than an InternalError is produced with
no store write, no upsert and no persisted push config. -/
theorem claim5_send_rejection_precedes_mutation
    (env : AgentTaskManager.Env) (existing : Option Task)
    (params : TaskSendParams) :
    (env.compatible params.acceptedOutputModes = false →
      AgentTaskManager.on_send_task env existing params =
        ([], SendTaskOutcome.err RpcError.incompatibleTypes)) ∧
    (∀ cfg, env.compatible params.acceptedOutputModes = true →
      params.pushNotification = some cfg → cfg.url = "" →
      AgentTaskManager.on_send_task env existing params =
        ([], SendTaskOutcome.err
          (RpcError.invalidParams "Push notification URL is missing"))) ∧
    (∀ cfg, env.compatible params.acceptedOutputModes = true →
      params.pushNotification = some cfg → cfg.url ≠ "" →
      env.has_auth = true → env.verify cfg.url = false →
      AgentTaskManager.on_send_task env existing params =
        ([Op.verifyPushURL cfg.url], SendTaskOutcome.err
          (RpcError.invalidParams "Push notification URL is invalid"))) ∧
    (∀ tr e,
      AgentTaskManager.on_send_task env existing params = (tr, SendTaskOutcome.err e) →
      (∀ m, e ≠ RpcError.internalError m) →
      storeWrites tr = [] ∧ (∀ tid, Op.upsertTask tid ∉ tr) ∧
      (∀ tid cfg, Op.persistPushConfig tid cfg ∉ tr)) := by
  refine ⟨?_, ?_, ?_, ?_⟩
  · intro h
    simp [AgentTaskManager.on_send_task, AgentTaskManager.validate_request, h]
  · intro cfg hc hp hu
    simp [AgentTaskManager.on_send_task, AgentTaskManager.validate_request, hc, hp, hu]
  · intro cfg hc hp hu ha hv
    simp [AgentTaskManager.on_send_task, AgentTaskManager.validate_request,
      AgentTaskManager.push_registration, AgentTaskManager.set_push_notification_info,
      hc, hp, hu, ha, hv]
  · intro tr e h hne
    rw [AgentTaskManager.on_send_task] at h
    cases hval : AgentTaskManager.validate_request env params with
    | some e' =>
        rw [hval] at h
        obtain ⟨h1, -⟩ := Prod.mk.injEq .. ▸ h
        subst h1
        refine ⟨rfl, by simp, by simp⟩
    | none =>
        rw [hval] at h
        simp only at h
        cases hpr : (AgentTaskManager.push_registration env params).2 with
        | false =>
            rw [hpr] at h
            simp only [if_pos rfl] at h
            obtain ⟨cfg, -, hops⟩ := push_registration_false env params hpr
            obtain ⟨h1, -⟩ := Prod.mk.injEq .. ▸ h
            subst h1
            rw [hops]
            refine ⟨rfl, by simp, by simp⟩
        | true =>
            rw [hpr] at h
            simp only [Bool.true_eq_false, if_false] at h
            cases hq : AgentTaskManager.get_user_query params with
            | error m =>
                simp only [hq, Prod.mk.injEq] at h
                exact absurd h.2 (by simp)
            | ok q =>
                cases hi : env.invoke q with
                | error m =>
                    simp only [hq, hi, Prod.mk.injEq] at h
                    obtain rfl : e = RpcError.internalError ("Error invoking agent: " ++ m) := by
                      have h2 := h.2
                      injection h2 with h3
                      exact h3.symm
                    exact absurd rfl (hne ("Error invoking agent: " ++ m))
                | ok resp =>
                    simp only [hq, hi, Prod.mk.injEq] at h
                    exact absurd h.2 (by simp)

/-- Witness for C5: the three rejection modes evaluated on concrete
requests, plus the final conjunct applied to the verification-failure
run. -/
theorem claim5_send_rejection_precedes_mutation_witness :
    AgentTaskManager.on_send_task
        { envAllOk with compatible := fun _ => false } none paramsPlain =
      ([], SendTaskOutcome.err RpcError.incompatibleTypes) ∧
    AgentTaskManager.on_send_task envAllOk none paramsPushNoURL =
      ([], SendTaskOutcome.err
        (RpcError.invalidParams "Push notification URL is missing")) ∧
    AgentTaskManager.on_send_task envVerifyFails none paramsPush =
      ([Op.verifyPushURL "http://callback"], SendTaskOutcome.err
        (RpcError.invalidParams "Push notification URL is invalid")) ∧
    storeWrites [Op.verifyPushURL "http://callback"] = [] :=
  ⟨(claim5_send_rejection_precedes_mutation
      { envAllOk with compatible := fun _ => false } none paramsPlain).1 rfl,
   (claim5_send_rejection_precedes_mutation envAllOk none paramsPushNoURL).2.1
      { url := "" } rfl rfl rfl,
   (claim5_send_rejection_precedes_mutation envVerifyFails none paramsPush).2.2.1
      { url := "http://callback" } rfl rfl (by decide) rfl rfl,
   ((claim5_send_rejection_precedes_mutation envVerifyFails none paramsPush).2.2.2
      [Op.verifyPushURL "http://callback"]
      (RpcError.invalidParams "Push notification URL is invalid")
      (by decide) (by intro m h; cases h)).1⟩

/-- Counterexample to C4 as stated: a request whose first message part is
not a text part makes the streaming run raise at query extraction, which
happens before the try block — the exception escapes the run (flag
`true`) and no `InternalError` event is enqueued (both managers), contrary
to the claim that any exception raised during the run is caught and a
single `InternalError` event enqueued. -/
theorem claim4_query_failure_escapes :
    AgentTaskManager.run_streaming_agent paramsBadPart
        [RunEvent.yield itemWorking none] = ([], true) ∧
    MathAgentTaskManager.run_streaming_agent paramsBadPart
        [RunEvent.yield itemWorking none] = ([], true) := by
  exact ⟨rfl, rfl⟩

/-- **C7 (amended).** On a request that passes validation and push
registration but whose message is empty or whose first content part is not
a text part, `on_send_task` raises the content error uncaught — the query
extraction happens outside the try block, so the error is not converted
into an `InternalError` response by the handler — and it does so only
after the task has already been upserted and set to WORKING. -/
theorem claim7_content_error_escapes
    (env : AgentTaskManager.Env) (existing : Option Task)
    (params : TaskSendParams) (m : String)
    (hval : AgentTaskManager.validate_request env params = none)
    (hpr : (AgentTaskManager.push_registration env params).2 = true)
    (hq : AgentTaskManager.get_user_query params = Except.error m) :
    AgentTaskManager.on_send_task env existing params =
      ((AgentTaskManager.push_registration env params).1 ++
        [Op.upsertTask params.id,
         Op.updateStore params.id { state := TaskState.WORKING } none,
         Op.sendNotification params.id],
       SendTaskOutcome.raised m) := by
  rw [AgentTaskManager.on_send_task, hval]
  simp only [hpr, Bool.true_eq_false, if_false, hq]

/-- Witness for C7: the non-text-first-part request evaluated concretely. -/
theorem claim7_content_error_escapes_witness :
    AgentTaskManager.on_send_task envAllOk none paramsBadPart =
      ([Op.upsertTask "t1",
        Op.updateStore "t1" { state := TaskState.WORKING } none,
        Op.sendNotification "t1"],
       SendTaskOutcome.raised "Only text parts are supported") :=
  claim7_content_error_escapes envAllOk none paramsBadPart
    "Only text parts are supported" rfl rfl rfl

/-- Counterexample to C7 as stated: for a request whose first part is not a
text part (and one with an empty message), the synchronous handler does
not return an `InternalError` response — the content error escapes
`on_send_task` uncaught. -/
theorem claim7_content_error_not_internal :
    (AgentTaskManager.on_send_task envAllOk none paramsBadPart).2 =
      SendTaskOutcome.raised "Only text parts are supported" ∧
    (AgentTaskManager.on_send_task envAllOk none paramsBadPart).2 ≠
      SendTaskOutcome.err
        (RpcError.internalError "Only text parts are supported") ∧
    (AgentTaskManager.on_send_task envAllOk none paramsEmptyMsg).2 =
      SendTaskOutcome.raised "list index out of range" := by
  refine ⟨rfl, by decide, rfl⟩

/-- **C1 (amended).** When the agent's `invoke` raises on the synchronous
path, `AgentTaskManager.on_send_task` returns an `InternalError` response,
while `MathAgentTaskManager.on_send_task` re-raises the failure as a
`ValueError` that escapes the handler; in both managers the only store
write of the request is the WORKING transition — no further `update_store`
happens after the failure, so the stored status remains WORKING. -/
theorem claim1_agent_invoke_failure
    (env : AgentTaskManager.Env) (menv : MathAgentTaskManager.Env)
    (existing : Option Task) (params : TaskSendParams) (q m : String)
    (hval : AgentTaskManager.validate_request env params = none)
    (hpr : (AgentTaskManager.push_registration env params).2 = true)
    (hq : AgentTaskManager.get_user_query params = Except.ok q)
    (hi : env.invoke q = Except.error m)
    (hmval : MathAgentTaskManager.validate_request menv params = none)
    (hmpr : (MathAgentTaskManager.push_registration menv params).2 = true)
    (hmi : menv.invoke q = Except.error m) :
    (AgentTaskManager.on_send_task env existing params).2 =
      SendTaskOutcome.err
        (RpcError.internalError ("Error invoking agent: " ++ m)) ∧
    storeWrites (AgentTaskManager.on_send_task env existing params).1 =
      [Op.updateStore params.id { state := TaskState.WORKING } none] ∧
    (MathAgentTaskManager.on_send_task menv existing params).2 =
      SendTaskOutcome.raised ("Error invoking agent: " ++ m) ∧
    storeWrites (MathAgentTaskManager.on_send_task menv existing params).1 =
      [Op.updateStore params.id { state := TaskState.WORKING } none] := by
  have hmq : MathAgentTaskManager.get_user_query params = Except.ok q := by
    rw [math_get_user_query_eq]; exact hq
  refine ⟨?_, ?_, ?_, ?_⟩
  · rw [AgentTaskManager.on_send_task, hval]
    simp only [hpr, Bool.true_eq_false, if_false, hq, hi]
  · rw [AgentTaskManager.on_send_task, hval]
    simp only [hpr, Bool.true_eq_false, if_false, hq, hi]
    rw [storeWrites_append, push_registration_storeWrites]
    simp [storeWrites, Op.isStoreWrite]
  · rw [MathAgentTaskManager.on_send_task, hmval]
    simp only [hmpr, Bool.true_eq_false, if_false, hmq, hmi]
  · rw [MathAgentTaskManager.on_send_task, hmval]
    simp only [hmpr, Bool.true_eq_false, if_false, hmq, hmi]
    rw [storeWrites_append, math_push_registration_storeWrites]
    simp [storeWrites, Op.isStoreWrite]

/-- Witness for C1: a failing invoke on the plain request, both managers. -/
theorem claim1_agent_invoke_failure_witness :
    (AgentTaskManager.on_send_task envInvokeFails none paramsPlain).2 =
      SendTaskOutcome.err
        (RpcError.internalError "Error invoking agent: boom") ∧
    storeWrites (AgentTaskManager.on_send_task envInvokeFails none paramsPlain).1 =
      [Op.updateStore "t1" { state := TaskState.WORKING } none] ∧
    (MathAgentTaskManager.on_send_task menvInvokeFails none paramsPlain).2 =
      SendTaskOutcome.raised "Error invoking agent: boom" ∧
    storeWrites (MathAgentTaskManager.on_send_task menvInvokeFails none paramsPlain).1 =
      [Op.updateStore "t1" { state := TaskState.WORKING } none] :=
  claim1_agent_invoke_failure envInvokeFails menvInvokeFails none paramsPlain
    "what is 2+2?" "boom" rfl rfl rfl rfl rfl rfl rfl

/-- Counterexample to C1 as stated: on an agent-invocation failure the math
manager's handler does not return an `InternalError` response — it
re-raises a `ValueError`, so the exception is propagated to the caller. -/
theorem claim1_math_manager_reraises :
    (MathAgentTaskManager.on_send_task menvInvokeFails none paramsPlain).2 =
      SendTaskOutcome.raised "Error invoking agent: boom" ∧
    (MathAgentTaskManager.on_send_task menvInvokeFails none paramsPlain).2 ≠
      SendTaskOutcome.err
        (RpcError.internalError "Error invoking agent: boom") := by
  refine ⟨rfl, by decide⟩

/-- **C6 (amended).** In both managers, `on_send_task_subscribe` validates
first but upserts the task *before* the push-notification verification:
when a present config's URL fails verification, the request is rejected
with `InvalidParams` and no status update or push-config persistence
occurs, but the trace is exactly the upsert followed by the failed
verification — the task has already been created (upsert precedes
verify-and-register, not the reverse as in `on_send_task`). -/
theorem claim6_subscribe_verify_after_upsert
    (env : AgentTaskManager.Env) (menv : MathAgentTaskManager.Env)
    (params : TaskSendParams) (cfg : PushNotificationConfig)
    (hc : env.compatible params.acceptedOutputModes = true)
    (hmc : menv.compatible params.acceptedOutputModes = true)
    (hp : params.pushNotification = some cfg)
    (hu : cfg.url ≠ "")
    (ha : env.has_auth = true)
    (hv : env.verify cfg.url = false)
    (hmv : menv.verify cfg.url = false) :
    AgentTaskManager.on_send_task_subscribe env params =
      ([Op.upsertTask params.id, Op.verifyPushURL cfg.url],
       SubscribeOutcome.err
         (RpcError.invalidParams "Push notification URL is invalid")) ∧
    MathAgentTaskManager.on_send_task_subscribe menv params =
      ([Op.upsertTask params.id, Op.verifyPushURL cfg.url],
       SubscribeOutcome.err
         (RpcError.invalidParams "Push notification URL is invalid")) := by
  constructor
  · simp [AgentTaskManager.on_send_task_subscribe, AgentTaskManager.validate_request,
      AgentTaskManager.push_registration, AgentTaskManager.set_push_notification_info,
      hc, hp, hu, ha, hv]
  · simp [MathAgentTaskManager.on_send_task_subscribe,
      MathAgentTaskManager.validate_request, MathAgentTaskManager.push_registration,
      MathAgentTaskManager.set_push_notification_info, hmc, hp, hu, hmv]

/-- Witness for C6: the rejected subscribe evaluated concretely. -/
theorem claim6_subscribe_verify_after_upsert_witness :
    AgentTaskManager.on_send_task_subscribe envVerifyFails paramsPush =
      ([Op.upsertTask "t1", Op.verifyPushURL "http://callback"],
       SubscribeOutcome.err
         (RpcError.invalidParams "Push notification URL is invalid")) ∧
    MathAgentTaskManager.on_send_task_subscribe menvVerifyFails paramsPush =
      ([Op.upsertTask "t1", Op.verifyPushURL "http://callback"],
       SubscribeOutcome.err
         (RpcError.invalidParams "Push notification URL is invalid")) :=
  claim6_subscribe_verify_after_upsert envVerifyFails menvVerifyFails paramsPush
    { url := "http://callback" } rfl rfl rfl (by decide) rfl rfl rfl

/-- Counterexample to C6 as stated: on a subscribe request whose push URL
fails verification, `InvalidParams` is returned but the trace contains the
task upsert — the task *was* created before the verification, contrary to
the claim that verify-and-register precedes the upsert and that the task
is never created. -/
theorem claim6_subscribe_upsert_before_verify :
    (AgentTaskManager.on_send_task_subscribe envVerifyFails paramsPush).2 =
      SubscribeOutcome.err
        (RpcError.invalidParams "Push notification URL is invalid") ∧
    Op.upsertTask "t1" ∈
      (AgentTaskManager.on_send_task_subscribe envVerifyFails paramsPush).1 := by
  refine ⟨rfl, by decide⟩

/-- **C8.** `_process_agent_response` (finala2e): when the agent's response
does not require user input, the returned task view is COMPLETED with no
status message, exactly one artifact appended whose text part is the
response content, and history truncated to the caller's requested
`historyLength` (a suffix of at most that many entries; untruncated when
none was requested); when it does require user input, the view is
INPUT_REQUIRED with the content as the status message and no artifact
appended. -/
theorem claim8_agent_response_mapping
    (params : TaskSendParams) (stored : Task) (resp : AgentResponse) :
    (resp.require_user_input.getD false = false →
      (AgentTaskManager.process_agent_response params stored resp).2.status.state =
        TaskState.COMPLETED ∧
      (AgentTaskManager.process_agent_response params stored resp).2.status.message = none ∧
      (AgentTaskManager.process_agent_response params stored resp).2.artifacts =
        stored.artifacts ++ [{ parts := [Part.text resp.content] }] ∧
      (params.historyLength = none →
        (AgentTaskManager.process_agent_response params stored resp).2.history =
          stored.history ++ [stored.status]) ∧
      (∀ k, params.historyLength = some k →
        (AgentTaskManager.process_agent_response params stored resp).2.history.length ≤ k ∧
        List.IsSuffix
          (AgentTaskManager.process_agent_response params stored resp).2.history
          (stored.history ++ [stored.status]))) ∧
    (resp.require_user_input.getD false = true →
      (AgentTaskManager.process_agent_response params stored resp).2.status.state =
        TaskState.INPUT_REQUIRED ∧
      (AgentTaskManager.process_agent_response params stored resp).2.status.message =
        some { role := "agent", parts := [Part.text resp.content] } ∧
      (AgentTaskManager.process_agent_response params stored resp).2.artifacts =
        stored.artifacts ∧
      (params.historyLength = none →
        (AgentTaskManager.process_agent_response params stored resp).2.history =
          stored.history ++ [stored.status]) ∧
      (∀ k, params.historyLength = some k →
        (AgentTaskManager.process_agent_response params stored resp).2.history.length ≤ k ∧
        List.IsSuffix
          (AgentTaskManager.process_agent_response params stored resp).2.history
          (stored.history ++ [stored.status]))) := by
  constructor <;> intro hr
  · cases hk : params.historyLength with
    | none =>
        refine ⟨?_, ?_, ?_, fun _ => ?_, ?_⟩ <;>
          simp [AgentTaskManager.process_agent_response, hr, hk,
            update_store, append_task_history]
    | some k0 =>
        refine ⟨?_, ?_, ?_, ?_, ?_⟩
        · simp [AgentTaskManager.process_agent_response, hr, hk,
            update_store, append_task_history]
        · simp [AgentTaskManager.process_agent_response, hr, hk,
            update_store, append_task_history]
        · simp [AgentTaskManager.process_agent_response, hr, hk,
            update_store, append_task_history]
        · intro hcontra
          exact absurd hcontra (by simp)
        · intro k hkk
          obtain rfl : k0 = k := by injection hkk
          constructor
          · simp [AgentTaskManager.process_agent_response, hr, hk,
              update_store, append_task_history]
            omega
          · simp only [AgentTaskManager.process_agent_response, hr,
              Bool.false_eq_true, if_false, hk, update_store, append_task_history]
            exact ⟨_, List.take_append_drop _ _⟩
  · cases hk : params.historyLength with
    | none =>
        refine ⟨?_, ?_, ?_, fun _ => ?_, ?_⟩ <;>
          simp [AgentTaskManager.process_agent_response, hr, hk,
            update_store, append_task_history]
    | some k0 =>
        refine ⟨?_, ?_, ?_, ?_, ?_⟩
        · simp [AgentTaskManager.process_agent_response, hr, hk,
            update_store, append_task_history]
        · simp [AgentTaskManager.process_agent_response, hr, hk,
            update_store, append_task_history]
        · simp [AgentTaskManager.process_agent_response, hr, hk,
            update_store, append_task_history]
        · intro hcontra
          exact absurd hcontra (by simp)
        · intro k hkk
          obtain rfl : k0 = k := by injection hkk
          constructor
          · simp [AgentTaskManager.process_agent_response, hr, hk,
              update_store, append_task_history]
            omega
          · simp only [AgentTaskManager.process_agent_response, hr,
              if_true, hk, update_store, append_task_history]
            exact ⟨_, List.take_append_drop _ _⟩

/-- Witness for C8: both response shapes on a concrete stored task with a
requested history length. -/
theorem claim8_agent_response_mapping_witness :
    (AgentTaskManager.process_agent_response
        { paramsPlain with historyLength := some 1 }
        { id := "t1", sessionId := "s1"
          status := { state := TaskState.WORKING }
          artifacts := []
          history := [{ state := TaskState.SUBMITTED }] }
        { content := "4", require_user_input := some false }).2.status.state =
      TaskState.COMPLETED ∧
    (AgentTaskManager.process_agent_response
        { paramsPlain with historyLength := some 1 }
        { id := "t1", sessionId := "s1"
          status := { state := TaskState.WORKING }
          artifacts := []
          history := [{ state := TaskState.SUBMITTED }] }
        { content := "4", require_user_input := some false }).2.artifacts =
      [{ parts := [Part.text "4"] }] ∧
    (AgentTaskManager.process_agent_response
        { paramsPlain with historyLength := some 1 }
        { id := "t1", sessionId := "s1"
          status := { state := TaskState.WORKING }
          artifacts := []
          history := [{ state := TaskState.SUBMITTED }] }
        { content := "4", require_user_input := some false }).2.history.length ≤ 1 ∧
    (AgentTaskManager.process_agent_response paramsPlain
        { id := "t1", sessionId := "s1"
          status := { state := TaskState.WORKING } }
        { content := "which?", require_user_input := some true }).2.status.state =
      TaskState.INPUT_REQUIRED := by
  have h1 := (claim8_agent_response_mapping
    { paramsPlain with historyLength := some 1 }
    { id := "t1", sessionId := "s1"
      status := { state := TaskState.WORKING }
      artifacts := []
      history := [{ state := TaskState.SUBMITTED }] }
    { content := "4", require_user_input := some false }).1 rfl
  have h2 := (claim8_agent_response_mapping paramsPlain
    { id := "t1", sessionId := "s1"
      status := { state := TaskState.WORKING } }
    { content := "which?", require_user_input := some true }).2 rfl
  exact ⟨h1.1, by simpa using h1.2.2.1, (h1.2.2.2.2 1 rfl).1, h2.1⟩


/-- **C9.** Invariant: no operation of either task manager ever writes a
FAILED or CANCELED state to the store — every status passed to
`update_store` by `on_send_task`, `_process_agent_response` or the
streaming run, in either manager, has state WORKING, INPUT_REQUIRED or
COMPLETED (so together with the SUBMITTED state written at creation these
are the only reachable stored states). -/
theorem claim9_no_terminal_failure_writes
    (env : AgentTaskManager.Env) (menv : MathAgentTaskManager.Env)
    (existing : Option Task) (params : TaskSendParams) (stored : Task)
    (resp : AgentResponse) (events : List RunEvent) (tid' : String)
    (st : TaskStatus) (a : Option (List Artifact))
    (h : Op.updateStore tid' st a ∈
           (AgentTaskManager.on_send_task env existing params).1 ∨
         Op.updateStore tid' st a ∈
           (MathAgentTaskManager.on_send_task menv existing params).1 ∨
         Op.updateStore tid' st a ∈
           AgentTaskManager.run_streaming_loop params.id events ∨
         Op.updateStore tid' st a ∈
           MathAgentTaskManager.run_streaming_loop params.id events ∨
         Op.updateStore tid' st a ∈
           (AgentTaskManager.process_agent_response params stored resp).1 ∨
         (∃ pr, MathAgentTaskManager.process_agent_response params stored resp =
              some pr ∧ Op.updateStore tid' st a ∈ pr.1)) :
    st.state = TaskState.WORKING ∨ st.state = TaskState.INPUT_REQUIRED ∨
      st.state = TaskState.COMPLETED := by
  rcases h with h | h | h | h | h | ⟨pr, hpr, h⟩
  · exact on_send_task_state_mem env existing params tid' st a h
  · exact math_on_send_task_state_mem menv existing params tid' st a h
  · exact run_loop_state_mem params.id tid' events st a h
  · exact math_run_loop_state_mem params.id tid' events st a h
  · rcases process_state_mem params stored resp tid' st a h with h | h
    · exact Or.inr (Or.inl h)
    · exact Or.inr (Or.inr h)
  · rcases math_process_state_mem params stored resp tid' st a pr hpr h with h | h
    · exact Or.inr (Or.inl h)
    · exact Or.inr (Or.inr h)

/-- Witness for C9: the WORKING write of a concrete successful
`on_send_task` run is in the allowed state set. -/
theorem claim9_no_terminal_failure_writes_witness :
    TaskState.WORKING = TaskState.WORKING ∨
      TaskState.WORKING = TaskState.INPUT_REQUIRED ∨
      TaskState.WORKING = TaskState.COMPLETED := by
  have h := claim9_no_terminal_failure_writes envAllOk menvInvokeFails none
    paramsPlain (upsert_task paramsPlain none)
    { content := "4", require_user_input := some false } [] "t1"
    { state := TaskState.WORKING } none
    (Or.inl (by decide))
  exact h

end A2AMCP
